import Mathlib

set_option maxHeartbeats 1000000

/-!
Shallow embedding of `src/src/binary-reader-interpreter.c` (wabt interpreter
binary reader): the validator's type stack, the istream emitter, the import
resolution helpers, the init-expression evaluator, and the load driver's
rollback behaviour, together with theorems checking the specification's
claims about them.

Machine integers are modelled as `Nat`; `uint32` payloads written into the
istream are serialized little-endian modulo 2^32 as in the source.  The
istream byte stream is modelled as a list of `IByte`, where an opcode byte is
kept symbolic (the numeric opcode values live in a header outside this
repository) and data bytes are plain numbers.
-/

/-- Wasm value types, plus the `VOID` and polymorphic `ANY` sentinels used by
the validator (`WasmType` in the source). -/
inductive WasmType
  | i32
  | i64
  | f32
  | f64
  | void
  | any
deriving DecidableEq

/-- `WasmInterpreterTypedValue`: a type together with raw value bits. -/
structure WasmTypedValue where
  type : WasmType
  value : Nat
deriving DecidableEq

/-- `WasmInterpreterGlobal`: typed value plus mutability flag. -/
structure WasmInterpreterGlobal where
  typed_value : WasmTypedValue
  mutable_ : Bool
deriving DecidableEq

/-- `LabelType` from the source. -/
inductive LabelType
  | func
  | block
  | loop
  | if_
  | else_
deriving DecidableEq

/-- `Label`: a control frame of the validator (`struct Label`). -/
structure Label where
  label_type : LabelType
  sig : List WasmType
  type_stack_limit : Nat
  offset : Nat
  fixup_offset : Nat
deriving DecidableEq

/-- `WasmExternalKind`. -/
inductive ExternalKind
  | func
  | table
  | memory
  | global
deriving DecidableEq

/-- The interpreter opcodes emitted by the functions modelled here
(`WASM_OPCODE_*`).  Their numeric byte values are defined outside this
repository, so they are kept symbolic. -/
inductive WasmOpcode
  | DROP
  | DROP_KEEP
  | BR
  | BR_UNLESS
  | BR_TABLE
  | RETURN
  | UNREACHABLE
  | ALLOCA
  | GET_LOCAL
  | SET_LOCAL
  | TEE_LOCAL
  | GET_GLOBAL
  | SET_GLOBAL
  | DATA
deriving DecidableEq

/-- One byte of the istream: either an opcode byte (symbolic) or a raw data
byte. -/
inductive IByte
  | op : WasmOpcode → IByte
  | byte : Nat → IByte
deriving DecidableEq

/-- `WASM_INVALID_OFFSET` (= `UINT32_MAX`). -/
def WASM_INVALID_OFFSET : Nat := 4294967295

/-- `UINT32_MAX`. -/
def UINT32_MAX : Nat := 4294967295

/-- `WasmResult`. -/
inductive WasmResult
  | ok
  | error
deriving DecidableEq

/-- The fields of `struct Context` used by the functions modelled here.
`param_and_local_types` stands for `current_func->defined.param_and_local_types`,
`env_globals` for `env->globals`, `import_kind` for the `kind` recorded into
the current import record by `on_import`, `import_global_desc` for the
`import->global` descriptor written by `on_import_global`, and `host_exports`
for the export list of the host import module (names elided: no claim touches
them, and `append_export`'s result is ignored by `on_import_global`). -/
structure Context where
  type_stack : List WasmType := []
  label_stack : List Label := []
  depth_fixups : List (List Nat) := []
  istream : List IByte := []
  istream_offset : Nat := 0
  global_index_mapping : List Nat := []
  num_global_imports : Nat := 0
  init_expr_value : WasmTypedValue := ⟨WasmType.i32, 0⟩
  param_and_local_types : List WasmType := []
  env_globals : List WasmInterpreterGlobal := []
  is_host_import : Bool := false
  import_kind : ExternalKind := ExternalKind.func
  import_env_index : Nat := 0
  import_global_desc : Option (WasmType × Bool) := none
  host_exports : List Nat := []
deriving DecidableEq

/-- The memory writer's `write_data`: overwrite `data.length` bytes of `buf`
starting at `off`, growing the buffer when the write reaches past its end
(zero-filling any gap; in this file every in-order write lands exactly at the
end). -/
def writeAt (buf : List IByte) (off : Nat) (data : List IByte) : List IByte :=
  buf.take off ++ List.replicate (off - buf.length) (IByte.byte 0) ++ data ++
    buf.drop (off + data.length)

/-- `emit_data_at`: random-access write, does not move `istream_offset`. -/
def emit_data_at (ctx : Context) (off : Nat) (data : List IByte) : Context :=
  { ctx with istream := writeAt ctx.istream off data }

/-- `emit_data`: write at `istream_offset`, then advance it by the size. -/
def emit_data (ctx : Context) (data : List IByte) : Context :=
  let c := emit_data_at ctx ctx.istream_offset data
  { c with istream_offset := c.istream_offset + data.length }

/-- Little-endian bytes of a `uint32` value. -/
def le32 (v : Nat) : List IByte :=
  [IByte.byte (v % 256), IByte.byte (v / 256 % 256),
   IByte.byte (v / 65536 % 256), IByte.byte (v / 16777216 % 256)]

/-- `emit_opcode`. -/
def emit_opcode (ctx : Context) (o : WasmOpcode) : Context :=
  emit_data ctx [IByte.op o]

/-- `emit_i8`. -/
def emit_i8 (ctx : Context) (v : Nat) : Context :=
  emit_data ctx [IByte.byte (v % 256)]

/-- `emit_i32`. -/
def emit_i32 (ctx : Context) (v : Nat) : Context :=
  emit_data ctx (le32 v)

/-- `emit_i32_at`. -/
def emit_i32_at (ctx : Context) (off v : Nat) : Context :=
  emit_data_at ctx off (le32 v)

/-- `emit_drop_keep`.  The source asserts `drop != UINT32_MAX` and
`keep <= 1`; those preconditions appear as hypotheses of the theorems. -/
def emit_drop_keep (ctx : Context) (drop keep : Nat) : Context :=
  if 0 < drop then
    if drop = 1 ∧ keep = 0 then
      emit_opcode ctx WasmOpcode.DROP
    else
      emit_i8 (emit_i32 (emit_opcode ctx WasmOpcode.DROP_KEEP) drop) keep
  else ctx

/-- The byte sequence `emit_drop_keep` appends for the pair `(drop, keep)`. -/
def dropKeepBytes (drop keep : Nat) : List IByte :=
  if 0 < drop then
    if drop = 1 ∧ keep = 0 then [IByte.op WasmOpcode.DROP]
    else [IByte.op WasmOpcode.DROP_KEEP] ++ le32 drop ++ [IByte.byte (keep % 256)]
  else []

/-- `top_type_is_any`: the polymorphic sentinel is on top of the type stack,
above the params-and-locals region of the current function. -/
def top_type_is_any (ctx : Context) : Bool :=
  decide (ctx.param_and_local_types.length < ctx.type_stack.length) &&
    decide (ctx.type_stack.getLast? = some WasmType.any)

/-- `top_type`: the top of the type stack.  The source asserts that the stack
is strictly larger than the top label's `type_stack_limit` (and `top_label`
needs a nonempty label stack); outside that domain the result is `none`. -/
def top_type (ctx : Context) : Option WasmType :=
  match ctx.label_stack.getLast? with
  | none => none
  | some label =>
      if label.type_stack_limit < ctx.type_stack.length then
        ctx.type_stack.getLast?
      else none

/-- `pop_type`: read the top; shrink the stack unless the top is `ANY`. -/
def pop_type (ctx : Context) : Option (WasmType × Context) :=
  match top_type ctx with
  | none => none
  | some t =>
      some (t, if t = WasmType.any then ctx
               else { ctx with type_stack := ctx.type_stack.dropLast })

/-- `push_type`: no-op in sticky-`ANY` mode and for `VOID`; otherwise append. -/
def push_type (ctx : Context) (t : WasmType) : Context :=
  if top_type_is_any ctx then ctx
  else if t = WasmType.void then ctx
  else { ctx with type_stack := ctx.type_stack ++ [t] }

/-- `type_stack_limit`: the top label's operand floor (`top_label` asserts a
nonempty label stack). -/
def type_stack_limit (ctx : Context) : Option Nat :=
  ctx.label_stack.getLast?.map (fun l => l.type_stack_limit)

/-- `check_type_stack_limit`.  The source computes `avail = size - limit` in
`size_t`; states with `limit > size` are excluded by the frame-floor
invariant, so `Nat` subtraction is used. -/
def check_type_stack_limit (ctx : Context) (expected : Nat) : Option WasmResult :=
  if top_type_is_any ctx then some WasmResult.ok
  else
    match type_stack_limit ctx with
    | none => none
    | some limit =>
        if ctx.type_stack.length - limit < expected then some WasmResult.error
        else some WasmResult.ok

/-- `check_type`. -/
def check_type (ctx : Context) (expected actual : WasmType) : WasmResult :=
  if top_type_is_any ctx then WasmResult.ok
  else if expected = actual then WasmResult.ok
  else WasmResult.error

/-- `pop_and_check_1_type` (`none` = `WASM_ERROR`). -/
def pop_and_check_1_type (ctx : Context) (expected : WasmType) : Option Context :=
  if top_type_is_any ctx then some ctx
  else
    match check_type_stack_limit ctx 1 with
    | some WasmResult.ok =>
        match pop_type ctx with
        | none => none
        | some (actual, c1) =>
            if check_type c1 expected actual = WasmResult.ok then some c1 else none
    | _ => none

/-- `get_label_br_arity`: a Loop frame takes no branch payload. -/
def get_label_br_arity (label : Label) : Nat :=
  if label.label_type ≠ LabelType.loop then label.sig.length else 0

/-- Grow a fixup vector-of-vectors to hold `n` slots
(`wasm_resize_uint32_vector_vector`, new slots empty). -/
def resizeFixups (v : List (List Nat)) (n : Nat) : List (List Nat) :=
  if n ≤ v.length then v else v ++ List.replicate (n - v.length) []

/-- `append_fixup` on `depth_fixups`: record the current istream offset as a
pending patch site for `index`. -/
def append_fixup (ctx : Context) (index : Nat) : Context :=
  let v := resizeFixups ctx.depth_fixups (index + 1)
  { ctx with depth_fixups := v.set index (v.getD index [] ++ [ctx.istream_offset]) }

/-- `emit_br_offset`: register a fixup when the target offset is still
unresolved, then emit the 32-bit offset. -/
def emit_br_offset (ctx : Context) (depth offset : Nat) : Context :=
  let c := if offset = WASM_INVALID_OFFSET then append_fixup ctx depth else ctx
  emit_i32 c offset

/-- `emit_br`: drop/keep down to the target frame's floor plus arity, then a
`BR` with the (possibly forward-patched) target offset.  `get_label` asserts
`depth < label_stack.size`; the source further asserts
`type_stack.size >= limit + arity` (a theorem hypothesis). -/
def emit_br (ctx : Context) (depth : Nat) : Option Context :=
  match ctx.label_stack[depth]? with
  | none => none
  | some label =>
      let arity := get_label_br_arity label
      let drop_count := ctx.type_stack.length - label.type_stack_limit - arity
      let c1 := emit_drop_keep ctx drop_count arity
      let c2 := emit_opcode c1 WasmOpcode.BR
      some (emit_br_offset c2 depth label.offset)

/-- `translate_local_index`: module-relative local index to depth-from-top
(the source asserts `local_index < type_stack.size`). -/
def translate_local_index (ctx : Context) (local_index : Nat) : Nat :=
  ctx.type_stack.length - local_index

/-- `on_get_local_expr` (`none` covers `CHECK_LOCAL` failure). -/
def on_get_local_expr (ctx : Context) (local_index : Nat) : Option Context :=
  match ctx.param_and_local_types[local_index]? with
  | none => none
  | some type =>
      let c1 := emit_opcode ctx WasmOpcode.GET_LOCAL
      let c2 := emit_i32 c1 (translate_local_index c1 local_index)
      some (push_type c2 type)

/-- `on_set_local_expr`. -/
def on_set_local_expr (ctx : Context) (local_index : Nat) : Option Context :=
  match ctx.param_and_local_types[local_index]? with
  | none => none
  | some type =>
      match pop_and_check_1_type ctx type with
      | none => none
      | some c1 =>
          let c2 := emit_opcode c1 WasmOpcode.SET_LOCAL
          some (emit_i32 c2 (translate_local_index c2 local_index))

/-- `on_tee_local_expr`. -/
def on_tee_local_expr (ctx : Context) (local_index : Nat) : Option Context :=
  match ctx.param_and_local_types[local_index]? with
  | none => none
  | some type =>
      match check_type_stack_limit ctx 1 with
      | some WasmResult.ok =>
          match top_type ctx with
          | none => none
          | some value =>
              if check_type ctx type value = WasmResult.ok then
                let c1 := emit_opcode ctx WasmOpcode.TEE_LOCAL
                some (emit_i32 c1 (translate_local_index c1 local_index))
              else none
      | _ => none

/-- `translate_global_index_to_env` (the source asserts the index is inside
the mapping). -/
def translate_global_index_to_env (ctx : Context) (global_index : Nat) : Option Nat :=
  ctx.global_index_mapping[global_index]?

/-- `get_global_by_module_index` (both lookups are asserted in the source). -/
def get_global_by_module_index (ctx : Context) (global_index : Nat) :
    Option WasmInterpreterGlobal := do
  let env_index ← translate_global_index_to_env ctx global_index
  ctx.env_globals[env_index]?

/-- `on_init_expr_get_global_expr` (`none` = `WASM_ERROR`; the out-of-bounds
lookups are asserts in the source and are excluded by theorem hypotheses). -/
def on_init_expr_get_global_expr (ctx : Context) (global_index : Nat) :
    Option Context :=
  if ctx.num_global_imports ≤ global_index then none
  else
    match get_global_by_module_index ctx global_index with
    | none => none
    | some ref_global =>
        if ref_global.mutable_ then none
        else some { ctx with init_expr_value := ref_global.typed_value }

/-- `WasmLimits` (`initial`/`max` are `uint64`). -/
structure WasmLimits where
  initial : Nat
  max : Nat
  has_max : Bool
deriving DecidableEq

/-- `check_import_limits`. -/
def check_import_limits (declared actual : WasmLimits) : WasmResult :=
  if actual.initial < declared.initial then WasmResult.error
  else if declared.has_max then
    if !actual.has_max then WasmResult.error
    else if declared.max < actual.max then WasmResult.error
    else WasmResult.ok
  else WasmResult.ok

/-- `check_import_kind`. -/
def check_import_kind (ctx : Context) (expected : ExternalKind) : WasmResult :=
  if ctx.import_kind = expected then WasmResult.ok else WasmResult.error

/-- `on_import_global`.  The host-import branch appends a fresh global to the
environment whose slot the host delegate populates (the delegate is the
external collaborator `host.import_delegate.import_global`, passed as a
function; `none` = delegate error).  The local `global_env_index` is first
computed as `env->globals.size - 1` before the branch, but both branches
overwrite it — the host branch recomputes it after the append, the non-host
branch uses the resolved export's index.  `append_export`'s result is ignored
by the source. -/
def on_import_global (ctx : Context)
    (import_global_delegate : WasmInterpreterGlobal → Option WasmInterpreterGlobal)
    (type : WasmType) (mut_ : Bool) : Option Context :=
  if ctx.is_host_import then
    let fresh : WasmInterpreterGlobal :=
      { typed_value := { type := type, value := 0 }, mutable_ := mut_ }
    match import_global_delegate fresh with
    | none => none
    | some populated =>
        let globals := ctx.env_globals ++ [populated]
        let global_env_index := globals.length - 1
        some { ctx with
          env_globals := globals,
          host_exports := ctx.host_exports ++ [global_env_index],
          global_index_mapping := ctx.global_index_mapping ++ [global_env_index],
          num_global_imports := ctx.num_global_imports + 1 }
  else
    if check_import_kind ctx ExternalKind.global ≠ WasmResult.ok then none
    else
      some { ctx with
        import_global_desc := some (type, mut_),
        global_index_mapping := ctx.global_index_mapping ++ [ctx.import_env_index],
        num_global_imports := ctx.num_global_imports + 1 }

/-!
Driver-level model for the load/rollback behaviour of
`wasm_read_binary_interpreter`.  The claim under test only concerns the
lengths of the environment's six vectors and of its istream, so the
environment is modelled by those lengths.  `wasm_read_binary` (the external
decoder) drives the callbacks of this file, whose only effects on these
lengths are appends/up-resizes (`on_signature_count`,
`on_function_signatures_count`, `on_global_count`, the `wasm_append_*` calls
in the import and table/memory handlers) and istream growth through the
writer; a run of the decoder is therefore modelled as a list of grow
operations plus a success flag.
-/

/-- The observable lengths of a `WasmInterpreterEnvironment`: the six vector
sizes plus the istream length (this is also the content of a
`WasmInterpreterEnvironmentMark`). -/
structure EnvSizes where
  sigs : Nat
  funcs : Nat
  globals : Nat
  tables : Nat
  memories : Nat
  modules : Nat
  istream : Nat
deriving DecidableEq

/-- One environment-growing step performed by a decoder callback. -/
inductive EnvOp
  | addSigs (n : Nat)
  | addFuncs (n : Nat)
  | addGlobals (n : Nat)
  | addTables (n : Nat)
  | addMemories (n : Nat)
  | addModules (n : Nat)
  | growIstream (n : Nat)

/-- Apply one growth step. -/
def applyEnvOp (e : EnvSizes) : EnvOp → EnvSizes
  | EnvOp.addSigs n => { e with sigs := e.sigs + n }
  | EnvOp.addFuncs n => { e with funcs := e.funcs + n }
  | EnvOp.addGlobals n => { e with globals := e.globals + n }
  | EnvOp.addTables n => { e with tables := e.tables + n }
  | EnvOp.addMemories n => { e with memories := e.memories + n }
  | EnvOp.addModules n => { e with modules := e.modules + n }
  | EnvOp.growIstream n => { e with istream := e.istream + n }

/-- Apply a whole run of growth steps. -/
def applyEnvOps (e : EnvSizes) (ops : List EnvOp) : EnvSizes :=
  ops.foldl applyEnvOp e

/-- `wasm_mark_interpreter_environment`: snapshot all lengths. -/
def wasm_mark_interpreter_environment (e : EnvSizes) : EnvSizes := e

/-- Modelled from the spec: `wasm_reset_interpreter_environment_to_mark` is
declared in `interpreter.h` and defined outside this repository's sources;
the spec describes it as truncate-to-mark rollback ("All appended environment
state is discarded. Partial bytes written to the istream are abandoned by
truncating to the mark's istream length"), i.e. each length is truncated to
the mark's length. -/
def wasm_reset_interpreter_environment_to_mark (e mark : EnvSizes) : EnvSizes :=
  { sigs := min e.sigs mark.sigs,
    funcs := min e.funcs mark.funcs,
    globals := min e.globals mark.globals,
    tables := min e.tables mark.tables,
    memories := min e.memories mark.memories,
    modules := min e.modules mark.modules,
    istream := min e.istream mark.istream }

/-- `wasm_read_binary_interpreter` at the level of environment lengths: mark
the environment, append the new module, run the decoder (modelled by its
growth steps `loadOps` and its result `readOk`); on success return the grown
environment and (the index of) the appended module, on failure roll back to
the mark and return no module. -/
def wasm_read_binary_interpreter (env : EnvSizes) (loadOps : List EnvOp)
    (readOk : Bool) : EnvSizes × Option Nat :=
  let mark := wasm_mark_interpreter_environment env
  let env1 := applyEnvOp env (EnvOp.addModules 1)
  let env2 := applyEnvOps env1 loadOps
  if readOk then (env2, some env.modules)
  else (wasm_reset_interpreter_environment_to_mark env2 mark, none)

/-- One istream write performed during a load: every write in the source goes
through `emit_data` (in-order append at `istream_offset`) or `emit_data_at`
(random-access patch). -/
inductive EmitOp
  | emit (data : List IByte)
  | emitAt (off : Nat) (data : List IByte)

/-- Apply one istream write to the context. -/
def applyEmitOp (ctx : Context) : EmitOp → Context
  | EmitOp.emit d => emit_data ctx d
  | EmitOp.emitAt o d => emit_data_at ctx o d

/-- Apply a whole sequence of istream writes. -/
def applyEmitOps (ctx : Context) (ops : List EmitOp) : Context :=
  ops.foldl applyEmitOp ctx

/-!  Concrete contexts used by witnesses and counterexamples.  -/

/-- A validator state with the `ANY` sentinel as the single stack entry, not
above the params-and-locals region (the function has one parameter). -/
def c5ctx : Context :=
  { type_stack := [WasmType.any],
    label_stack := [⟨LabelType.func, [], 0, 0, 0⟩],
    param_and_local_types := [WasmType.i32] }

/-- A validator state with `ANY` on top, above the params region. -/
def c5wctx : Context :=
  { type_stack := [WasmType.i32, WasmType.any],
    label_stack := [⟨LabelType.func, [], 1, 0, 0⟩],
    param_and_local_types := [WasmType.i32] }

/-- A host-import context for the `on_import_global` host path. -/
def c2ctx : Context := { is_host_import := true }

/-- The context produced by the host-path `on_import_global` on `c2ctx`. -/
def c2res : Context :=
  { c2ctx with
    env_globals := [⟨⟨WasmType.i32, 0⟩, false⟩],
    host_exports := [0],
    global_index_mapping := [0],
    num_global_imports := 1 }

/-- A non-host import context whose resolved export kind is `global`. -/
def c3ctx : Context := { import_kind := ExternalKind.global }

/-- The context produced by `on_import_global` on `c3ctx` for a mutable
global: the import is accepted. -/
def c3res : Context :=
  { c3ctx with
    import_global_desc := some (WasmType.i32, true),
    global_index_mapping := [0],
    num_global_imports := 1 }

/-- A branch-emission context: one Block frame with an `i32` signature, floor
0 and resolved target offset 5, over a two-entry stack. -/
def c6ctx : Context :=
  { type_stack := [WasmType.i32, WasmType.i32],
    label_stack := [⟨LabelType.block, [WasmType.i32], 0, 5, 0⟩] }

/-- The Block label of `c6ctx`. -/
def c6label : Label := ⟨LabelType.block, [WasmType.i32], 0, 5, 0⟩

/-- An environment for the init-expression evaluator: one imported immutable
`i32` global holding 7. -/
def c7ctx : Context :=
  { num_global_imports := 1,
    global_index_mapping := [0],
    env_globals := [⟨⟨WasmType.i32, 7⟩, false⟩] }

/-- A function-body context for local-index translation: one `i32` parameter,
two entries on the stack, Func frame with floor 1. -/
def c8ctx : Context :=
  { type_stack := [WasmType.i32, WasmType.i32],
    label_stack := [⟨LabelType.func, [WasmType.i32], 1, 0, 0⟩],
    param_and_local_types := [WasmType.i32] }

/-- The context produced by `on_set_local_expr c8ctx 0`. -/
def c8set : Context :=
  { c8ctx with
    type_stack := [WasmType.i32],
    istream := [IByte.op WasmOpcode.SET_LOCAL, IByte.byte 1, IByte.byte 0,
      IByte.byte 0, IByte.byte 0],
    istream_offset := 5 }

/-- A simple context for the `emit_drop_keep` witness. -/
def c9ctx : Context := { istream := [IByte.op WasmOpcode.ALLOCA], istream_offset := 1 }

/-!  Helper lemmas about the istream writer.  -/

/-- When the writer is in append position (`istream_offset` at the end of the
buffer, which the in-order emitters maintain throughout a load), `emit_data`
appends its bytes. -/
theorem emit_data_of_append (ctx : Context) (d : List IByte)
    (h : ctx.istream_offset = ctx.istream.length) :
    emit_data ctx d =
      { ctx with istream := ctx.istream ++ d,
                 istream_offset := ctx.istream_offset + d.length } := by
  unfold emit_data emit_data_at writeAt
  rw [h]
  simp [List.drop_eq_nil_of_le]

/-- Two in-order writes append the concatenation. -/
theorem emit_data_emit_data (ctx : Context) (d1 d2 : List IByte)
    (h : ctx.istream_offset = ctx.istream.length) :
    emit_data (emit_data ctx d1) d2 = emit_data ctx (d1 ++ d2) := by
  rw [emit_data_of_append ctx d1 h]
  rw [emit_data_of_append _ d2 (by simp [h])]
  rw [emit_data_of_append ctx (d1 ++ d2) h]
  simp [Nat.add_assoc]

/-- `emit_drop_keep` in append position appends exactly `dropKeepBytes`. -/
theorem emit_drop_keep_of_append (ctx : Context) (drop keep : Nat)
    (h : ctx.istream_offset = ctx.istream.length) :
    emit_drop_keep ctx drop keep =
      { ctx with istream := ctx.istream ++ dropKeepBytes drop keep,
                 istream_offset := ctx.istream_offset + (dropKeepBytes drop keep).length } := by
  unfold emit_drop_keep dropKeepBytes
  by_cases h0 : 0 < drop
  · by_cases h1 : drop = 1 ∧ keep = 0
    · simp only [if_pos h0, if_pos h1]
      rw [emit_opcode, emit_data_of_append ctx _ h]
    · simp only [if_pos h0, if_neg h1]
      rw [emit_i8, emit_i32, emit_opcode, emit_data_emit_data _ _ _ h,
        emit_data_emit_data _ _ _ h, emit_data_of_append ctx _ h]
  · simp [if_neg h0]

/-- A run of decoder callbacks never shrinks any environment length. -/
theorem applyEnvOps_mono (ops : List EnvOp) (e : EnvSizes) :
    e.sigs ≤ (applyEnvOps e ops).sigs ∧
    e.funcs ≤ (applyEnvOps e ops).funcs ∧
    e.globals ≤ (applyEnvOps e ops).globals ∧
    e.tables ≤ (applyEnvOps e ops).tables ∧
    e.memories ≤ (applyEnvOps e ops).memories ∧
    e.modules ≤ (applyEnvOps e ops).modules ∧
    e.istream ≤ (applyEnvOps e ops).istream := by
  induction ops generalizing e with
  | nil => simp [applyEnvOps]
  | cons op rest ih =>
    have hstep : applyEnvOps e (op :: rest) = applyEnvOps (applyEnvOp e op) rest := rfl
    have h := ih (applyEnvOp e op)
    rw [hstep]
    cases op <;> simp [applyEnvOp] at h ⊢ <;> omega

/-- C1: when `wasm_read_binary` fails, `wasm_read_binary_interpreter` rolls
the environment back to the mark taken on entry — every vector length
(signatures, functions, globals, tables, memories, modules) and the istream
length equal their pre-load values — and returns no module. -/
theorem c1_failed_load_rolls_back (env : EnvSizes) (loadOps : List EnvOp) :
    wasm_read_binary_interpreter env loadOps false = (env, none) := by
  have h := applyEnvOps_mono loadOps (applyEnvOp env (EnvOp.addModules 1))
  unfold wasm_read_binary_interpreter wasm_mark_interpreter_environment
    wasm_reset_interpreter_environment_to_mark
  simp only [Bool.false_eq_true, if_false]
  simp [applyEnvOp] at h
  cases env with
  | mk s f g t m mo i =>
    simp_all [applyEnvOp, EnvSizes.mk.injEq]
    omega

/-- C4: `check_import_limits` succeeds exactly when the actual initial size
is at least the declared one and, whenever the declared limits carry a max,
the actual limits carry a max no larger than the declared one; otherwise it
fails. -/
theorem c4_check_import_limits_iff (declared actual : WasmLimits) :
    check_import_limits declared actual = WasmResult.ok ↔
      (declared.initial ≤ actual.initial ∧
        (declared.has_max = true → actual.has_max = true ∧ actual.max ≤ declared.max)) := by
  unfold check_import_limits
  rcases declared with ⟨di, dM, dh⟩
  rcases actual with ⟨ai, aM, ah⟩
  cases dh <;> cases ah <;> by_cases h1 : ai < di <;> simp [h1] <;> omega

/-- C10: `emit_data` advances `istream_offset` by exactly the number of bytes
written; `emit_data_at` (patching) never changes it; hence over any sequence
of istream writes the offset is non-decreasing, so a successful load's
`istream_end` (the final offset) is at least its `istream_start` (the offset
at entry). -/
theorem c10_istream_offset_monotone :
    (∀ (ctx : Context) (d : List IByte),
        (emit_data ctx d).istream_offset = ctx.istream_offset + d.length) ∧
    (∀ (ctx : Context) (o : Nat) (d : List IByte),
        (emit_data_at ctx o d).istream_offset = ctx.istream_offset) ∧
    (∀ (ctx : Context) (ops : List EmitOp),
        ctx.istream_offset ≤ (applyEmitOps ctx ops).istream_offset) := by
  refine ⟨fun ctx d => rfl, fun ctx o d => rfl, ?_⟩
  intro ctx ops
  induction ops generalizing ctx with
  | nil => simp [applyEmitOps]
  | cons op rest ih =>
    have hstep : applyEmitOps ctx (op :: rest) = applyEmitOps (applyEmitOp ctx op) rest := rfl
    rw [hstep]
    refine le_trans ?_ (ih (applyEmitOp ctx op))
    cases op with
    | emit d => simp [applyEmitOp, emit_data, emit_data_at]
    | emitAt o d => simp [applyEmitOp, emit_data_at]

/-- `pop_type` never touches the istream, and shrinks the type stack by at
most the top element. -/
theorem pop_type_parts (ctx : Context) (t : WasmType) (c1 : Context)
    (h : pop_type ctx = some (t, c1)) :
    c1.istream = ctx.istream ∧ c1.istream_offset = ctx.istream_offset ∧
      (c1.type_stack = ctx.type_stack ∨ c1.type_stack = ctx.type_stack.dropLast) := by
  unfold pop_type at h
  cases htop : top_type ctx with
  | none => rw [htop] at h; cases h
  | some u =>
    rw [htop] at h
    simp only [Option.some.injEq, Prod.mk.injEq] at h
    obtain ⟨hu, hc⟩ := h
    by_cases hany : u = WasmType.any
    · rw [if_pos hany] at hc
      subst hc
      exact ⟨rfl, rfl, Or.inl rfl⟩
    · rw [if_neg hany] at hc
      subst hc
      exact ⟨rfl, rfl, Or.inr rfl⟩

/-- `pop_and_check_1_type` never touches the istream, and shrinks the type
stack by at most the top element. -/
theorem pop_and_check_1_type_parts (ctx : Context) (expected : WasmType)
    (c1 : Context) (h : pop_and_check_1_type ctx expected = some c1) :
    c1.istream = ctx.istream ∧ c1.istream_offset = ctx.istream_offset ∧
      (c1.type_stack = ctx.type_stack ∨ c1.type_stack = ctx.type_stack.dropLast) := by
  unfold pop_and_check_1_type at h
  split at h
  · cases h
    exact ⟨rfl, rfl, Or.inl rfl⟩
  · split at h
    · cases hpop : pop_type ctx with
      | none => rw [hpop] at h; cases h
      | some pr =>
        obtain ⟨actual, cpop⟩ := pr
        simp only [hpop] at h
        by_cases hck : check_type cpop expected actual = WasmResult.ok
        · rw [if_pos hck] at h
          simp only [Option.some.injEq] at h
          subst h
          exact pop_type_parts ctx actual _ hpop
        · rw [if_neg hck] at h
          cases h
    · cases h

/-- `push_type` never touches the istream. -/
theorem push_type_istream (ctx : Context) (t : WasmType) :
    (push_type ctx t).istream = ctx.istream := by
  unfold push_type
  split
  · rfl
  · split
    · rfl
    · rfl

/-- `append_fixup` only touches `depth_fixups`. -/
theorem append_fixup_parts (ctx : Context) (i : Nat) :
    (append_fixup ctx i).istream = ctx.istream ∧
    (append_fixup ctx i).istream_offset = ctx.istream_offset :=
  ⟨rfl, rfl⟩

/-- An opcode byte followed by a 32-bit immediate, in append position. -/
theorem emit_opcode_then_i32 (c : Context) (o : WasmOpcode) (v : Nat)
    (hc : c.istream_offset = c.istream.length) :
    emit_i32 (emit_opcode c o) v =
      { c with istream := c.istream ++ [IByte.op o] ++ le32 v,
               istream_offset := c.istream_offset + 5 } := by
  rw [emit_i32, emit_opcode, emit_data_emit_data _ _ _ hc, emit_data_of_append _ _ hc]
  simp [le32, List.append_assoc]

/-- `emit_br_offset` in append position appends the 32-bit target offset
(besides possibly recording a fixup). -/
theorem emit_br_offset_istream (c : Context) (depth offset : Nat)
    (hc : c.istream_offset = c.istream.length) :
    (emit_br_offset c depth offset).istream = c.istream ++ le32 offset := by
  unfold emit_br_offset
  by_cases hoff : offset = WASM_INVALID_OFFSET
  · rw [if_pos hoff, emit_i32,
      emit_data_of_append (append_fixup c depth) (le32 offset) (by exact hc)]
    rfl
  · rw [if_neg hoff, emit_i32, emit_data_of_append c (le32 offset) hc]

/-- C2: in the host-import path of `on_import_global`, the environment-global
index recorded into `global_index_mapping` is `env->globals.size - 1`
computed after the append — the index of the newly appended global. -/
theorem c2_host_import_global_records_appended_index
    (ctx : Context) (delegate : WasmInterpreterGlobal → Option WasmInterpreterGlobal)
    (type : WasmType) (mut_ : Bool) (c' : Context)
    (hhost : ctx.is_host_import = true)
    (hres : on_import_global ctx delegate type mut_ = some c') :
    c'.env_globals.length = ctx.env_globals.length + 1 ∧
    c'.global_index_mapping = ctx.global_index_mapping ++ [c'.env_globals.length - 1] ∧
    c'.global_index_mapping = ctx.global_index_mapping ++ [ctx.env_globals.length] := by
  unfold on_import_global at hres
  rw [hhost] at hres
  simp only [if_true] at hres
  cases hdel : delegate { typed_value := { type := type, value := 0 }, mutable_ := mut_ } with
  | none => rw [hdel] at hres; cases hres
  | some populated =>
    rw [hdel] at hres
    simp only [Option.some.injEq] at hres
    subst hres
    refine ⟨by simp, by simp, by simp⟩

/-- C2 witness: the host path on a concrete context records index 0, the
index of the global it just appended. -/
theorem c2_host_import_global_witness :
    c2res.env_globals.length = c2ctx.env_globals.length + 1 ∧
    c2res.global_index_mapping = c2ctx.global_index_mapping ++ [c2res.env_globals.length - 1] ∧
    c2res.global_index_mapping = c2ctx.global_index_mapping ++ [c2ctx.env_globals.length] :=
  c2_host_import_global_records_appended_index c2ctx (fun g => some g)
    WasmType.i32 false c2res rfl (by decide)

/-- C3: evaluation of the failing input — a non-host import of a *mutable*
i32 global whose resolved export kind is `global` is accepted by
`on_import_global` (it returns `WASM_OK` and records the mapping), although
the specification requires a mutable-global import to fail validation (the
source carries a `TODO: check type and mutability` at this point). -/
theorem c3_mutable_global_import_accepted :
    on_import_global c3ctx (fun g => some g) WasmType.i32 true = some c3res := by
  decide

/-- C5 counterexample: a state whose single stack entry is `ANY` with a
one-parameter function.  `top_type_is_any` is false (the top is not above the
params-and-locals region), so the claim requires `pop_type` to remove and
return the top; the code instead returns `ANY` without shrinking the
stack. -/
theorem c5_pop_type_counterexample :
    top_type_is_any c5ctx = false ∧
    c5ctx.type_stack.getLast? = some WasmType.any ∧
    pop_type c5ctx = some (WasmType.any, c5ctx) ∧
    pop_type c5ctx ≠
      some (WasmType.any, { c5ctx with type_stack := c5ctx.type_stack.dropLast }) := by
  decide

/-- C5 (amended): `push_type` of a non-void type is a no-op exactly when
`top_type_is_any` holds (sentinel on top, above the params-and-locals
region) and appends otherwise; `pop_type`'s behaviour depends only on the
top element: it returns `ANY` without shrinking whenever the top element is
`ANY` (whether or not it is above the params-and-locals region), and removes
and returns the top element whenever the top element is not `ANY`. -/
theorem c5_push_pop_amended (ctx : Context) (t : WasmType) :
    (top_type_is_any ctx = true → t ≠ WasmType.void → push_type ctx t = ctx) ∧
    (top_type_is_any ctx = false → t ≠ WasmType.void →
      push_type ctx t = { ctx with type_stack := ctx.type_stack ++ [t] }) ∧
    (top_type ctx = some WasmType.any → pop_type ctx = some (WasmType.any, ctx)) ∧
    (∀ u, top_type ctx = some u → u ≠ WasmType.any →
      pop_type ctx = some (u, { ctx with type_stack := ctx.type_stack.dropLast })) := by
  refine ⟨?_, ?_, ?_, ?_⟩
  · intro h _
    simp [push_type, h]
  · intro h ht
    simp [push_type, h, ht]
  · intro h
    simp [pop_type, h]
  · intro u h hu
    simp [pop_type, h, hu]

/-- C5 witness: with `ANY` on top above the params region, pushing `i32` is a
no-op and popping returns `ANY` without shrinking. -/
theorem c5_push_pop_witness :
    push_type c5wctx WasmType.i32 = c5wctx ∧
    pop_type c5wctx = some (WasmType.any, c5wctx) :=
  ⟨(c5_push_pop_amended c5wctx WasmType.i32).1 (by decide) (by decide),
   (c5_push_pop_amended c5wctx WasmType.i32).2.2.1 (by decide)⟩

/-- C7: an init-expr `get_global` succeeds exactly when the module-local
index refers to an imported (index below `num_global_imports`) immutable
global, in which case the init-expr value becomes that global's typed value;
a defined or mutable global is rejected. -/
theorem c7_init_expr_get_global (ctx : Context) (gi : Nat)
    (g : WasmInterpreterGlobal)
    (hg : get_global_by_module_index ctx gi = some g) :
    on_init_expr_get_global_expr ctx gi =
      (if gi < ctx.num_global_imports then
        (if g.mutable_ then none
         else some { ctx with init_expr_value := g.typed_value })
       else none) := by
  simp only [on_init_expr_get_global_expr, hg]
  by_cases h : gi < ctx.num_global_imports
  · simp [h, Nat.not_le.mpr h]
  · simp [h, Nat.le_of_not_lt h]

/-- C7 witness: reading imported immutable global 0 (an i32 holding 7) parks
its typed value in the context. -/
theorem c7_init_expr_get_global_witness :
    on_init_expr_get_global_expr c7ctx 0 =
      some { c7ctx with init_expr_value := ⟨WasmType.i32, 7⟩ } := by
  have h := c7_init_expr_get_global c7ctx 0 ⟨⟨WasmType.i32, 7⟩, false⟩ (by decide)
  simpa [c7ctx] using h

/-- C9: `emit_drop_keep` with `drop != UINT32_MAX` and `keep <= 1` emits no
bytes when `drop = 0`, exactly one `DROP` opcode byte when `drop = 1` and
`keep = 0`, and otherwise a `DROP_KEEP` opcode followed by the 32-bit drop
count and the 8-bit keep count. -/
theorem c9_emit_drop_keep_cases (ctx : Context) (drop keep : Nat)
    (happ : ctx.istream_offset = ctx.istream.length)
    (hdrop : drop ≠ UINT32_MAX) (hkeep : keep ≤ 1) :
    (drop = 0 → emit_drop_keep ctx drop keep = ctx) ∧
    (drop = 1 → keep = 0 →
      emit_drop_keep ctx drop keep =
        { ctx with istream := ctx.istream ++ [IByte.op WasmOpcode.DROP],
                   istream_offset := ctx.istream_offset + 1 }) ∧
    (0 < drop → ¬(drop = 1 ∧ keep = 0) →
      emit_drop_keep ctx drop keep =
        { ctx with
            istream := ctx.istream ++ [IByte.op WasmOpcode.DROP_KEEP] ++
              le32 drop ++ [IByte.byte keep],
            istream_offset := ctx.istream_offset + 6 }) := by
  have hmod : keep % 256 = keep := Nat.mod_eq_of_lt (by omega)
  refine ⟨?_, ?_, ?_⟩
  · intro h0
    simp [emit_drop_keep, h0]
  · intro h1 h0
    rw [emit_drop_keep_of_append ctx drop keep happ]
    subst h1; subst h0
    simp [dropKeepBytes]
  · intro hpos hne
    rw [emit_drop_keep_of_append ctx drop keep happ]
    simp only [dropKeepBytes, if_pos hpos, if_neg hne, hmod]
    simp [le32]

/-- C6: the branch arity of a control frame is 0 for Loop and the signature
size otherwise, and `emit_br` emits a drop/keep for exactly
`(type_stack.size - frame.floor) - arity` dropped values and `arity` kept
values, followed by `BR` and the target offset.  The hypotheses are the
source's asserts (`depth < label_stack.size`, `keep <= 1`,
`type_stack.size >= floor + arity`) plus the writer's append-position
invariant. -/
theorem c6_emit_br_drop_keep (ctx : Context) (depth : Nat) (label : Label)
    (hlabel : ctx.label_stack[depth]? = some label)
    (happ : ctx.istream_offset = ctx.istream.length)
    (hkeep : label.sig.length ≤ 1)
    (hstack : label.type_stack_limit + get_label_br_arity label ≤ ctx.type_stack.length) :
    get_label_br_arity label =
      (if label.label_type = LabelType.loop then 0 else label.sig.length) ∧
    (emit_br ctx depth).map (fun c => c.istream) =
      some (ctx.istream ++
        dropKeepBytes
          (ctx.type_stack.length - label.type_stack_limit - get_label_br_arity label)
          (get_label_br_arity label) ++
        [IByte.op WasmOpcode.BR] ++ le32 label.offset) := by
  constructor
  · unfold get_label_br_arity
    by_cases h : label.label_type = LabelType.loop <;> simp [h]
  · unfold emit_br
    rw [hlabel]
    simp only [Option.map_some']
    rw [emit_drop_keep_of_append ctx _ _ happ]
    rw [emit_opcode,
      emit_data_of_append _ [IByte.op WasmOpcode.BR] (by simp [happ])]
    rw [emit_br_offset_istream _ depth label.offset (by simp [happ]; omega)]

/-- C6 witness: a `br` to a Block frame with signature `[i32]`, floor 0 and
resolved offset 5, over a two-entry stack: arity 1, drop 1. -/
theorem c6_emit_br_witness :
    get_label_br_arity c6label =
      (if c6label.label_type = LabelType.loop then 0 else c6label.sig.length) ∧
    (emit_br c6ctx 0).map (fun c => c.istream) =
      some (c6ctx.istream ++
        dropKeepBytes
          (c6ctx.type_stack.length - c6label.type_stack_limit - get_label_br_arity c6label)
          (get_label_br_arity c6label) ++
        [IByte.op WasmOpcode.BR] ++ le32 c6label.offset) :=
  c6_emit_br_drop_keep c6ctx 0 c6label (by decide) (by decide) (by decide) (by decide)

/-- C8: for `get_local`/`set_local`/`tee_local` with a valid local index `i`,
the 32-bit index emitted after the opcode equals `type_stack.size - i` at the
point of emission: the entry stack for `get_local` and `tee_local` (which pop
nothing before emitting), and the post-pop stack — which is also the final
stack — for `set_local`. -/
theorem c8_local_index_translation (ctx : Context) (i : Nat)
    (happ : ctx.istream_offset = ctx.istream.length)
    (hlocal : i < ctx.param_and_local_types.length)
    (hstk : i < ctx.type_stack.length) :
    ((on_get_local_expr ctx i).map (fun c => c.istream) =
        some (ctx.istream ++ [IByte.op WasmOpcode.GET_LOCAL] ++
          le32 (ctx.type_stack.length - i))) ∧
    (∀ c', on_set_local_expr ctx i = some c' →
        c'.istream = ctx.istream ++ [IByte.op WasmOpcode.SET_LOCAL] ++
          le32 (c'.type_stack.length - i)) ∧
    (∀ c', on_tee_local_expr ctx i = some c' →
        c'.istream = ctx.istream ++ [IByte.op WasmOpcode.TEE_LOCAL] ++
          le32 (ctx.type_stack.length - i)) := by
  refine ⟨?_, ?_, ?_⟩
  · unfold on_get_local_expr
    rw [List.getElem?_eq_getElem hlocal]
    simp only [Option.map_some']
    rw [push_type_istream]
    rw [emit_opcode_then_i32 ctx WasmOpcode.GET_LOCAL _ happ]
    rfl
  · intro c' hc'
    unfold on_set_local_expr at hc'
    simp only [List.getElem?_eq_getElem hlocal] at hc'
    cases hp : pop_and_check_1_type ctx ctx.param_and_local_types[i] with
    | none => simp only [hp] at hc'; cases hc'
    | some c1 =>
      simp only [hp, Option.some.injEq] at hc'
      obtain ⟨h1, h2, _⟩ := pop_and_check_1_type_parts ctx _ c1 hp
      subst hc'
      rw [emit_opcode_then_i32 c1 WasmOpcode.SET_LOCAL _ (by rw [h1, h2, happ])]
      rw [h1]
      rfl
  · intro c' hc'
    unfold on_tee_local_expr at hc'
    simp only [List.getElem?_eq_getElem hlocal] at hc'
    cases hl : check_type_stack_limit ctx 1 with
    | none => simp only [hl] at hc'; cases hc'
    | some r =>
      cases r with
      | error => simp only [hl] at hc'; cases hc'
      | ok =>
        simp only [hl] at hc'
        cases htop : top_type ctx with
        | none => simp only [htop] at hc'; cases hc'
        | some value =>
          simp only [htop] at hc'
          by_cases hck : check_type ctx ctx.param_and_local_types[i] value = WasmResult.ok
          · rw [if_pos hck] at hc'
            simp only [Option.some.injEq] at hc'
            subst hc'
            rw [emit_opcode_then_i32 ctx WasmOpcode.TEE_LOCAL _ happ]
            rfl
          · rw [if_neg hck] at hc'
            cases hc'

/-- C8 witness: in a one-parameter function with a two-entry stack, the
emitted depth is 2 for `get_local 0` and 1 for `set_local 0` (emitted after
the pop). -/
theorem c8_local_index_witness :
    ((on_get_local_expr c8ctx 0).map (fun c => c.istream) =
      some (c8ctx.istream ++ [IByte.op WasmOpcode.GET_LOCAL] ++
        le32 (c8ctx.type_stack.length - 0))) ∧
    c8set.istream = c8ctx.istream ++ [IByte.op WasmOpcode.SET_LOCAL] ++
      le32 (c8set.type_stack.length - 0) :=
  ⟨(c8_local_index_translation c8ctx 0 (by decide) (by decide) (by decide)).1,
   (c8_local_index_translation c8ctx 0 (by decide) (by decide) (by decide)).2.1
     c8set (by decide)⟩

/-- C9 witness: `emit_drop_keep` with drop 2, keep 1 appends the `DROP_KEEP`
encoding. -/
theorem c9_emit_drop_keep_witness :
    emit_drop_keep c9ctx 2 1 =
      { c9ctx with
          istream := c9ctx.istream ++ [IByte.op WasmOpcode.DROP_KEEP] ++
            le32 2 ++ [IByte.byte 1],
          istream_offset := c9ctx.istream_offset + 6 } :=
  (c9_emit_drop_keep_cases c9ctx 2 1 (by decide) (by decide) (by decide)).2.2
    (by decide) (by decide)
